import Mathlib

/-!
Shallow embedding of the core logic of `src/visualize_bbox.py`:

* reference resolution (`resolve_item`, lines 80-100),
* per-page grouping of main-text elements
  (`page_elements_from_json_document`, lines 106-137),
* the style table and style lookup used by `draw_boxes`
  (lines 178-228),
* the PDF-space to raster-space coordinate conversion inside
  `draw_boxes` (lines 219-225),
* the output-file iteration loop (lines 377-393).

Python values flowing through this code are JSON values (the script
feeds `json.loads` output into these functions), so they are modelled
by the inductive type `Json` below.  A Python function that can raise
an uncaught exception is modelled as returning an `Option`, with
`none` standing for "an exception propagates to the caller".

Python string primitives used by the script (`str.split`, `str.lower`,
`str.endswith`, `int(...)`, substring membership) are re-implemented
here by structural recursion over character lists so that every
definition is executable inside the kernel.  The re-implementations
follow CPython semantics for ASCII data; Unicode-only behaviours
(non-ASCII decimal digits accepted by `int`, non-ASCII case mapping,
Unicode whitespace) are outside the model, and none of the data
handled by the script exercises them.
-/

/-- Auxiliary splitter: Python `s.split("/")` over an explicit
character list, with an accumulator for the current field. -/
def splitSlashAux : List Char → List Char → List String
  | [], acc => [String.mk acc.reverse]
  | c :: cs, acc =>
    if c = '/' then String.mk acc.reverse :: splitSlashAux cs []
    else splitSlashAux cs (c :: acc)

/-- Python `s.split("/")`: splits on every slash; the empty string
yields `[""]`, and adjacent slashes yield empty fields. -/
def splitSlash (s : String) : List String := splitSlashAux s.data []

/-- Python `s.lower()` (ASCII case mapping). -/
def pyLower (s : String) : String := String.mk (s.data.map Char.toLower)

/-- Python `s.endswith(suffix)`. -/
def pyEndsWith (s suffix : String) : Bool := suffix.data.isSuffixOf s.data

/-- Auxiliary for substring membership: does `pat` occur as a
contiguous substring of the given character list? -/
def strContainsAux (pat : List Char) : List Char → Bool
  | [] => pat.isEmpty
  | c :: cs => pat.isPrefixOf (c :: cs) || strContainsAux pat cs

/-- Python substring membership `pat in s`. -/
def strContains (s pat : String) : Bool := strContainsAux pat.data s.data

/-- Strip leading and trailing whitespace, as Python `int(...)` does
before parsing its argument. -/
def pyStrip (l : List Char) : List Char :=
  ((l.dropWhile Char.isWhitespace).reverse.dropWhile Char.isWhitespace).reverse

/-- Digit tail accepted by Python `int(...)` after the first digit:
decimal digits, with single underscores allowed only between digits. -/
def pyDigitsAux : List Char → Nat → Option Nat
  | [], acc => some acc
  | c :: cs, acc =>
    if c.isDigit then pyDigitsAux cs (acc * 10 + (c.toNat - 48))
    else if c = '_' then
      match cs with
      | [] => none
      | c2 :: cs2 =>
        if c2.isDigit then pyDigitsAux cs2 ((acc * 10 + (c2.toNat - 48)))
        else none
    else none

/-- Unsigned decimal literal accepted by Python `int(...)`: at least
one digit, then `pyDigitsAux`. -/
def pyIntDigits : List Char → Option Nat
  | [] => none
  | c :: cs => if c.isDigit then pyDigitsAux cs (c.toNat - 48) else none

/-- Signed decimal literal accepted by Python `int(...)` after
whitespace stripping: an optional single sign, then digits. -/
def pyIntCore : List Char → Option Int
  | [] => none
  | c :: cs =>
    if c = '+' then (pyIntDigits cs).map (fun n => (n : Int))
    else if c = '-' then (pyIntDigits cs).map (fun n => -(n : Int))
    else (pyIntDigits (c :: cs)).map (fun n => (n : Int))

/-- Python `int(k)` for a string `k`: `some` of the parsed integer, or
`none` when `int` raises `ValueError`.  Note that signed (in
particular negative) literals are accepted. -/
def pyInt? (s : String) : Option Int := pyIntCore (pyStrip s.data)

/-- JSON values, the data manipulated by the script: the output of
`json.loads` is a tree of dicts, lists, strings, numbers, booleans and
`None`.  Numbers are modelled as rationals.  Objects keep their
key-value pairs in insertion order, as Python dicts do. -/
inductive Json where
  | null : Json
  | bool (b : Bool) : Json
  | num (q : Rat) : Json
  | str (s : String) : Json
  | arr (elems : List Json) : Json
  | obj (entries : List (String × Json)) : Json

/-- First-match association-list lookup, the model of Python dict
indexing (dicts produced by `json.loads` have unique keys, for which
first-match lookup is exact). -/
def lookupAssoc {α : Type} (m : List (String × α)) (k : String) : Option α :=
  (m.find? (fun p => decide (p.1 = k))).map (fun p => p.2)

/-- Lookup of a key in a JSON object. -/
def lookupKey (kvs : List (String × Json)) (k : String) : Option Json :=
  lookupAssoc kvs k

/-- Python list indexing `l[i]`: a negative index counts from the end;
`none` models an `IndexError`. -/
def pyIndex (l : List Json) (i : Int) : Option Json :=
  if 0 ≤ i then l.get? i.toNat
  else if (-i).toNat ≤ l.length then l.get? (l.length - (-i).toNat)
  else none

/-- Python membership test `"$ref" in raw_item` (line 84): key
membership for a dict, element membership for a list (a string only
equals a string), substring membership for a string; `none` models the
`TypeError` raised when the operand is not a container. -/
def hasRefMarker : Json → Option Bool
  | .obj kvs => some (kvs.any (fun p => decide (p.1 = "$ref")))
  | .arr l =>
    some (l.any (fun x =>
      match x with
      | Json.str s => decide (s = "$ref")
      | _ => false))
  | .str s => some (strContains s "$ref")
  | _ => none

/-- The token-walking loop of `resolve_item` (lines 87-99), one token
at a time.  At a dict, a missing key is reported and the function
returns the empty dict (line 91).  At a list, a token that `int`
cannot parse is reported and the function returns the empty dict
(line 98); a successfully parsed index is then used directly, so an
out-of-range index raises an uncaught `IndexError` (line 99), modelled
by `none`.  Indexing any other value (string, number, boolean, null)
with a string token raises a `TypeError`, also modelled by `none`. -/
def resolveWalk : Json → List String → Option Json
  | item, [] => some item
  | item, k :: rest =>
    match item with
    | Json.obj kvs =>
      match lookupKey kvs k with
      | none => some (Json.obj [])
      | some v => resolveWalk v rest
    | Json.arr l =>
      match pyInt? k with
      | none => some (Json.obj [])
      | some i =>
        match pyIndex l i with
        | none => none
        | some v => resolveWalk v rest
    | _ => none

/-- Embedding of `resolve_item(raw_item, doc)` (lines 80-100).  An
item without a reference marker is returned unchanged (lines 84-85).
Otherwise the item must be a dict whose reference value is a string:
`raw_item["$ref"]` on a list or string operand raises a `TypeError`,
and `.split("/")` on a non-string value raises an `AttributeError`,
both modelled by `none`.  The reference string is split on slashes and
the first token (the document root) is discarded (lines 86-88). -/
def resolve_item (raw_item doc : Json) : Option Json :=
  match hasRefMarker raw_item with
  | none => none
  | some false => some raw_item
  | some true =>
    match raw_item with
    | Json.obj kvs =>
      match lookupKey kvs "$ref" with
      | some (Json.str s) => resolveWalk doc ((splitSlash s).tail)
      | some _ => none
      | none => none
    | _ => none

/-- Hashable dict keys: page numbers become keys of the `clusters`
dict (line 132), and Python raises a `TypeError` when the key is a
list or a dict.  The remaining scalar JSON values are all valid
keys. -/
inductive JKey where
  | null : JKey
  | bool (b : Bool) : JKey
  | num (q : Rat) : JKey
  | str (s : String) : JKey
  deriving DecidableEq

/-- Conversion of a JSON value to a dict key; `none` models the
`TypeError` raised on an unhashable key. -/
def Json.toKey? : Json → Option JKey
  | .null => some JKey.null
  | .bool b => some (JKey.bool b)
  | .num q => some (JKey.num q)
  | .str s => some (JKey.str s)
  | _ => none

/-- One record of the per-page box list built on lines 132-136: the
dict with keys "page", "type", "bbox".  The page value doubles as the
dict key under which the record is stored, and must be hashable. -/
structure BoxDescription where
  page : JKey
  type : Json
  bbox : Json

/-- The `clusters` dict of `page_elements_from_json_document`,
mapping a page number to the boxes on it, in insertion order. -/
abbrev PageBoxMap : Type := List (JKey × List BoxDescription)

/-- Python `clusters.setdefault(page, []).append(box)` (line 132) on
the insertion-ordered association list: append to the entry of an
existing key, otherwise add a new entry at the end. -/
def setdefaultAppend (clusters : PageBoxMap) (page : JKey) (b : BoxDescription) :
    PageBoxMap :=
  if clusters.any (fun e => decide (e.1 = page)) then
    clusters.map (fun e => if e.1 = page then (e.1, e.2 ++ [b]) else e)
  else clusters ++ [(page, [b])]

/-- Outcome of one iteration of the loop body of
`page_elements_from_json_document` (lines 124-136). -/
inductive ItemStep where
  | err : ItemStep
  | skip : ItemStep
  | box (b : BoxDescription) : ItemStep

/-- One iteration of the loop body of
`page_elements_from_json_document` (lines 125-136): resolve the raw
item; when `"prov" in item` fails the element is skipped with a
diagnostic (lines 126-129, `skip`); otherwise the page and bbox are
taken from the first provenance record `item["prov"][0]` and the type
from `item["type"]` (lines 130-135).  `err` models every uncaught
exception of the body: a raising `resolve_item`, a membership test on
a non-container, `item["prov"][0]` on an empty list or a non-list,
a missing "page"/"type"/"bbox" key, and an unhashable page used as
dict key. -/
def itemStep (doc raw : Json) : ItemStep :=
  match resolve_item raw doc with
  | none => ItemStep.err
  | some item =>
    match item with
    | Json.obj kvs =>
      match lookupKey kvs "prov" with
      | none => ItemStep.skip
      | some (Json.arr (Json.obj pkvs :: _)) =>
        match lookupKey pkvs "page", lookupKey kvs "type", lookupKey pkvs "bbox" with
        | some page, some ty, some bbox =>
          match page.toKey? with
          | some k => ItemStep.box { page := k, type := ty, bbox := bbox }
          | none => ItemStep.err
        | _, _, _ => ItemStep.err
      | some _ => ItemStep.err
    | Json.arr l =>
      if l.any (fun x =>
          match x with
          | Json.str s => decide (s = "prov")
          | _ => false) then ItemStep.err
      else ItemStep.skip
    | Json.str s => if strContains s "prov" then ItemStep.err else ItemStep.skip
    | _ => ItemStep.err

/-- The loop of `page_elements_from_json_document` (lines 124-136)
over the remaining raw items, threading the `clusters` dict and the
list of diagnostics printed so far. -/
def processMainText (doc : Json) :
    List Json → PageBoxMap → List String → Option (PageBoxMap × List String)
  | [], clusters, log => some (clusters, log)
  | raw :: rest, clusters, log =>
    match itemStep doc raw with
    | ItemStep.err => none
    | ItemStep.skip => processMainText doc rest clusters (log ++ ["PROV not found"])
    | ItemStep.box b =>
      processMainText doc rest (setdefaultAppend clusters b.page b) log

/-- Python iteration `for raw_item in doc_jsondata["main-text"]`
(line 124): a list yields its elements, a dict yields its keys, a
string yields its one-character substrings; iterating any other value
raises a `TypeError`, modelled by `none`. -/
def mainTextItems : Json → Option (List Json)
  | .arr l => some l
  | .obj kvs => some (kvs.map (fun p => Json.str p.1))
  | .str s => some (s.data.map (fun c => Json.str (String.mk [c])))
  | _ => none

/-- Embedding of `page_elements_from_json_document(doc_jsondata)`
(lines 106-137).  The result pairs the final `clusters` dict with the
list of diagnostics printed along the way; `none` models an uncaught
exception (including a document that is not a dict or has no
"main-text" key). -/
def page_elements_from_json_document (doc : Json) :
    Option (PageBoxMap × List String) :=
  match doc with
  | Json.obj kvs =>
    match lookupKey kvs "main-text" with
    | some mt =>
      match mainTextItems mt with
      | some items => processMainText doc items [] []
      | none => none
    | none => none
  | _ => none

/-- Modelled from the spec: the sequence of successfully extracted
boxes in main-text encounter order, together with the diagnostics, for
comparison with the grouped `PageBoxMap` (spec section 3, PageBoxMap:
insertion order reflects the order elements appear in the source
document's main-text sequence). -/
def collectBoxes (doc : Json) : List Json → Option (List BoxDescription × List String)
  | [] => some ([], [])
  | raw :: rest =>
    match itemStep doc raw with
    | ItemStep.err => none
    | ItemStep.skip =>
      (collectBoxes doc rest).map (fun r => (r.1, "PROV not found" :: r.2))
    | ItemStep.box b =>
      (collectBoxes doc rest).map (fun r => (b :: r.1, r.2))

/-- Modelled from the spec: the flat extracted-box sequence of a whole
document, in main-text encounter order. -/
def mainTextBoxes (doc : Json) : Option (List BoxDescription × List String) :=
  match doc with
  | Json.obj kvs =>
    match lookupKey kvs "main-text" with
    | some mt =>
      match mainTextItems mt with
      | some items => collectBoxes doc items
      | none => none
    | none => none
  | _ => none

/-- Grouping a flat box sequence with repeated `setdefault`-append
steps, starting from the empty dict. -/
def groupByPage (bs : List BoxDescription) : PageBoxMap :=
  bs.foldl (fun c b => setdefaultAppend c b.page b) []

/-- Python `round`: round half to even (banker's rounding), the
rounding applied to box coordinates on lines 220-224. -/
def pyRound (q : Rat) : Int :=
  let f : Int := ⌊q⌋
  let r : Rat := q - f
  if r < 1 / 2 then f
  else if 1 / 2 < r then f + 1
  else if f % 2 = 0 then f else f + 1

/-- The rectangle computation of `draw_boxes` (lines 219-225): from
the box's bbox list and the page dimensions `dims = [width, height]`,
build `[round(bbox[0]), round(dims[1]-bbox[3]), round(bbox[2]),
round(dims[1]-bbox[1])]`; `none` models the `IndexError` raised when
either list is too short. -/
def rectOfBbox (bbox : List Rat) (dims : List Rat) : Option (List Int) :=
  match bbox.get? 0, bbox.get? 3, bbox.get? 2, bbox.get? 1, dims.get? 1 with
  | some b0, some b3, some b2, some b1, some h =>
    some [pyRound b0, pyRound (h - b3), pyRound b2, pyRound (h - b1)]
  | _, _, _, _, _ => none

/-- Modelled from the spec: `to_raster_rect(bbox, page_height)` with
`bbox = (x0, y0, x1, y1)`, returning `(left, top, right, bottom) =
(round(x0), round(H - y1), round(x1), round(H - y0))` (spec
section 4.3). -/
def to_raster_rect (bbox : Rat × Rat × Rat × Rat) (page_height : Rat) :
    Int × Int × Int × Int :=
  (pyRound bbox.1, pyRound (page_height - bbox.2.2.2),
    pyRound bbox.2.2.1, pyRound (page_height - bbox.2.1))

/-- The cluster style table (lines 178-186).  A colour is a list of
RGB or RGBA components. -/
def labels_colors_clusters : List (String × (List Nat × List Nat)) :=
  [("table", ([240, 128, 128, 100], [255, 0, 0])),
   ("caption", ([243, 156, 18, 100], [255, 0, 0])),
   ("citation", ([14, 210, 234, 100], [255, 0, 0])),
   ("picture", ([255, 236, 204, 100], [255, 0, 0])),
   ("formula", ([128, 139, 150, 100], [255, 0, 0])),
   ("subtitle-level-1", ([204, 51, 102, 100], [255, 0, 0])),
   ("paragraph", ([234, 234, 43, 100], [255, 0, 0]))]

/-- The fallback style of `draw_boxes` (line 227): gray fill,
transparent outline. -/
def defaultStyle : List Nat × List Nat := ([128, 128, 128, 100], [0, 0, 0, 0])

/-- The style lookup of `draw_boxes` (line 227):
`colors_map.get(type.lower(), ((128,128,128,100), (0,0,0,0)))`. -/
def getStyle (colors_map : List (String × (List Nat × List Nat))) (ty : String) :
    List Nat × List Nat :=
  (lookupAssoc colors_map (pyLower ty)).getD defaultStyle

/-- One data file of a results archive, as seen by the iteration loop
(lines 377-393): its member name and the result of reading it and
parsing it as JSON (`none` when reading or parsing fails). -/
structure ArchiveFile where
  name : String
  content : Option Json

/-- Embedding of the output-file iteration loop over one archive
(lines 380-393), returning the processed `(doc_jsondata,
doc_cellsdata)` pairs and the printed messages.  Member names not
ending in ".json" are skipped (lines 381-382).  The read and
`json.loads` of the ".json" member (line 385) sit outside any
`try`, so a failure there propagates and aborts the whole batch,
modelled by `none`.  The ".cells" branch (lines 386-391) can never
set `doc_cellsdata`: `archive.read` returns a `bytes` object, which
is not a context manager, so the `with` statement raises and the bare
`except` catches it (it equally catches a missing member or a parse
failure); hence the cells data is always the empty dict and the
message "Something else went wrong" is always printed.  The call to
`visualize_document_bboxes` is modelled by collecting its argument
pair. -/
def processOutputFiles : List ArchiveFile → Option (List (Json × Json) × List String)
  | [] => some ([], [])
  | f :: rest =>
    if pyEndsWith f.name ".json" then
      match f.content with
      | none => none
      | some j =>
        match processOutputFiles rest with
        | none => none
        | some (docs, log) =>
          some ((j, Json.obj []) :: docs, "Something else went wrong" :: log)
    else processOutputFiles rest

/-- Modelled from the spec: canonical path lookup in a nested JSON
document (spec sections 3 and 4.1): a token indexes a dict as a key;
at a list, a token that is a plain decimal numeral indexes the list;
the path exists exactly when the lookup returns a value. -/
def natDigitsAux : List Char → Nat → Option Nat
  | [], acc => some acc
  | c :: cs, acc =>
    if c.isDigit then natDigitsAux cs (acc * 10 + (c.toNat - 48)) else none

/-- Plain decimal numeral: nonempty, digits only. -/
def natToken? (s : String) : Option Nat :=
  match s.data with
  | [] => none
  | c :: cs => if c.isDigit then natDigitsAux cs (c.toNat - 48) else none

/-- Modelled from the spec: the nested value of a document at a
reference path (spec section 4.1), or `none` when no value exists
there. -/
def specGetPath : Json → List String → Option Json
  | item, [] => some item
  | item, k :: rest =>
    match item with
    | Json.obj kvs =>
      match lookupKey kvs k with
      | some v => specGetPath v rest
      | none => none
    | Json.arr l =>
      match natToken? k with
      | some n =>
        match l.get? n with
        | some v => specGetPath v rest
        | none => none
      | none => none
    | _ => none


/-- A concrete bounding box value used by the test documents. -/
def bbA : Json := Json.arr [Json.num 10, Json.num 20, Json.num 30, Json.num 40]

/-- A concrete bounding box value used by the test documents. -/
def bbB : Json := Json.arr [Json.num 50, Json.num 60, Json.num 70, Json.num 80]

/-- A concrete bounding box value used by the test documents. -/
def bbC : Json := Json.arr [Json.num 15, Json.num 25, Json.num 35, Json.num 45]

/-- An inline main-text element on page 1. -/
def elemA : Json :=
  Json.obj [("type", Json.str "paragraph"),
    ("prov", Json.arr [Json.obj [("page", Json.num 1), ("bbox", bbA)]])]

/-- A main-text element on page 1, stored under the document's
"figures" key and reachable through a reference. -/
def elemB : Json :=
  Json.obj [("type", Json.str "table"),
    ("prov", Json.arr [Json.obj [("page", Json.num 1), ("bbox", bbB)]])]

/-- An inline main-text element on page 2. -/
def elemC : Json :=
  Json.obj [("type", Json.str "caption"),
    ("prov", Json.arr [Json.obj [("page", Json.num 2), ("bbox", bbC)]])]

/-- A main-text entry that is a reference to the first element of the
document's "figures" list. -/
def refItemB : Json := Json.obj [("$ref", Json.str "#/figures/0")]

/-- A main-text element without provenance. -/
def elemNoProv : Json := Json.obj [("type", Json.str "paragraph")]

/-- A document whose three main-text elements carry provenance on
pages 1, 1, 2 in encounter order; the middle one sits behind a
reference. -/
def docPages112 : Json :=
  Json.obj [("main-text", Json.arr [elemA, refItemB, elemC]),
    ("figures", Json.arr [elemB])]

/-- The box record extracted from elemA. -/
def boxA : BoxDescription :=
  { page := JKey.num 1, type := Json.str "paragraph", bbox := bbA }

/-- The box record extracted from elemB. -/
def boxB : BoxDescription :=
  { page := JKey.num 1, type := Json.str "table", bbox := bbB }

/-- The box record extracted from elemC. -/
def boxC : BoxDescription :=
  { page := JKey.num 2, type := Json.str "caption", bbox := bbC }

/-- Association lookup at a cons cell: hit the head entry or continue
with the tail. -/
theorem lookupAssoc_cons {α : Type} (e : String × α) (es : List (String × α))
    (k : String) :
    lookupAssoc (e :: es) k = if e.1 = k then some e.2 else lookupAssoc es k := by
  by_cases he : e.1 = k
  · unfold lookupAssoc
    rw [List.find?_cons_of_pos _ (by simpa using he)]
    simp [he]
  · unfold lookupAssoc
    rw [List.find?_cons_of_neg _ (by simpa using he)]
    simp [he]

/-- A successful association lookup means some entry carries the
key. -/
theorem lookupAssoc_some_any {α : Type} (m : List (String × α)) (k : String)
    (v : α) (h : lookupAssoc m k = some v) :
    m.any (fun p => decide (p.1 = k)) = true := by
  induction m with
  | nil => simp [lookupAssoc] at h
  | cons e es ih =>
    rw [lookupAssoc_cons] at h
    by_cases he : e.1 = k
    · simp [List.any_cons, he]
    · rw [if_neg he] at h
      simp [List.any_cons, ih h]

/-- The entry update of `setdefaultAppend` touches only values, so
key membership is unchanged. -/
theorem any_key_setUpdate (c : PageBoxMap) (page k : JKey) (b : BoxDescription) :
    ((c.map (fun e => if e.1 = page then (e.1, e.2 ++ [b]) else e)).any
      (fun e => decide (e.1 = k))) = c.any (fun e => decide (e.1 = k)) := by
  induction c with
  | nil => rfl
  | cons e es ih =>
    by_cases he : e.1 = page <;> simp [he, ih]

/-- The grouping loop against the flat collection loop: threading the
dict through `processMainText` is grouping `collectBoxes` output with
`setdefaultAppend` folds, and the diagnostics agree. -/
theorem processMainText_eq_collectBoxes (doc : Json) (items : List Json) :
    ∀ (clusters : PageBoxMap) (log : List String),
      processMainText doc items clusters log =
        (collectBoxes doc items).map
          (fun r => (r.1.foldl (fun c b => setdefaultAppend c b.page b) clusters,
            log ++ r.2)) := by
  induction items with
  | nil => intro clusters log; simp [processMainText, collectBoxes]
  | cons raw rest ih =>
    intro clusters log
    cases h : itemStep doc raw with
    | err => simp [processMainText, collectBoxes, h]
    | skip =>
      cases hc : collectBoxes doc rest with
      | none => simp [processMainText, collectBoxes, h, hc, ih]
      | some r => simp [processMainText, collectBoxes, h, hc, ih]
    | box b =>
      cases hc : collectBoxes doc rest with
      | none => simp [processMainText, collectBoxes, h, hc, ih]
      | some r => simp [processMainText, collectBoxes, h, hc, ih]

/-- Whole-document version of the previous refinement. -/
theorem page_elements_eq_mainTextBoxes (doc : Json) :
    page_elements_from_json_document doc =
      (mainTextBoxes doc).map (fun r => (groupByPage r.1, r.2)) := by
  cases doc with
  | obj kvs =>
    cases hm : lookupKey kvs "main-text" with
    | none => simp [page_elements_from_json_document, mainTextBoxes, hm]
    | some mt =>
      cases hi : mainTextItems mt with
      | none => simp [page_elements_from_json_document, mainTextBoxes, hm, hi]
      | some items =>
        simp [page_elements_from_json_document, mainTextBoxes, hm, hi,
          processMainText_eq_collectBoxes, groupByPage]
  | null => rfl
  | bool b => rfl
  | num q => rfl
  | str s => rfl
  | arr l => rfl

set_option maxRecDepth 4000

/-- Filtering a singleton whose element satisfies the predicate keeps
it. -/
theorem filter_singleton_true {α : Type} (p : α → Bool) (a : α) (h : p a = true) :
    [a].filter p = [a] := by
  simp [h]

/-- Filtering a singleton whose element fails the predicate drops
it. -/
theorem filter_singleton_false {α : Type} (p : α → Bool) (a : α) (h : p a = false) :
    [a].filter p = [] := by
  simp [h]

/-- Invariant of the `setdefault`-append fold: provided every entry of
the accumulator dict holds exactly the already-seen boxes of its page
in encounter order, and every seen page has an entry, the same holds
after folding further boxes; hence every entry of the result is the
filter of the full encounter sequence by its page. -/
theorem foldl_setdefault_filter :
    ∀ (bs : List BoxDescription) (c : PageBoxMap) (done : List BoxDescription),
      (∀ p l, (p, l) ∈ c → l = done.filter (fun b => decide (b.page = p))) →
      (∀ b, b ∈ done → c.any (fun e => decide (e.1 = b.page)) = true) →
      ∀ p l, (p, l) ∈ bs.foldl (fun acc b => setdefaultAppend acc b.page b) c →
        l = (done ++ bs).filter (fun b => decide (b.page = p)) := by
  intro bs
  induction bs with
  | nil =>
    intro c done h1 h2 p l hm
    simpa using h1 p l hm
  | cons b rest ih =>
    intro c done h1 h2 p l hm
    rw [List.foldl_cons] at hm
    have hinv1 : ∀ p' l', (p', l') ∈ setdefaultAppend c b.page b →
        l' = (done ++ [b]).filter (fun x => decide (x.page = p')) := by
      intro p' l' hm'
      unfold setdefaultAppend at hm'
      by_cases hany : c.any (fun e => decide (e.1 = b.page)) = true
      · rw [if_pos hany] at hm'
        obtain ⟨e, he, heq⟩ := List.mem_map.mp hm'
        by_cases hep : e.1 = b.page
        · rw [if_pos hep] at heq
          have hp' : e.1 = p' := congrArg Prod.fst heq
          have hl' : e.2 ++ [b] = l' := congrArg Prod.snd heq
          have h1e : e.2 = done.filter (fun x => decide (x.page = e.1)) :=
            h1 e.1 e.2 (by simpa using he)
          have hb : decide (b.page = e.1) = true := decide_eq_true hep.symm
          rw [← hl', ← hp', List.filter_append, ← h1e,
            filter_singleton_true (fun x => decide (x.page = e.1)) b hb]
        · rw [if_neg hep] at heq
          have hp' : e.1 = p' := congrArg Prod.fst heq
          have hl' : e.2 = l' := congrArg Prod.snd heq
          have h1e : e.2 = done.filter (fun x => decide (x.page = e.1)) :=
            h1 e.1 e.2 (by simpa using he)
          have hb : decide (b.page = e.1) = false :=
            decide_eq_false (fun hc => hep hc.symm)
          rw [← hl', ← hp', List.filter_append, ← h1e,
            filter_singleton_false (fun x => decide (x.page = e.1)) b hb,
            List.append_nil]
      · rw [if_neg hany] at hm'
        rcases List.mem_append.mp hm' with hin | hin
        · have h1e := h1 p' l' hin
          have hbp : ¬ b.page = p' := by
            intro hc
            exact hany (List.any_eq_true.mpr ⟨(p', l'), hin, by simp [hc]⟩)
          rw [List.filter_append, ← h1e,
            filter_singleton_false (fun x => decide (x.page = p')) b
              (decide_eq_false hbp),
            List.append_nil]
        · have hin' : (p', l') = (b.page, [b]) := by simpa using hin
          have hp' : p' = b.page := congrArg Prod.fst hin'
          have hl' : l' = [b] := congrArg Prod.snd hin'
          have hdone : done.filter (fun x => decide (x.page = p')) = [] := by
            rw [List.filter_eq_nil_iff]
            intro x hx
            simp only [decide_eq_true_eq]
            intro hc
            have hxb : x.page = b.page := hc.trans hp'
            exact hany (by rw [← hxb]; exact h2 x hx)
          rw [List.filter_append, hdone, hl', hp']
          simp
    have hinv2 : ∀ x, x ∈ done ++ [b] →
        (setdefaultAppend c b.page b).any (fun e => decide (e.1 = x.page)) = true := by
      intro x hx
      unfold setdefaultAppend
      by_cases hany : c.any (fun e => decide (e.1 = b.page)) = true
      · rw [if_pos hany, any_key_setUpdate]
        rcases List.mem_append.mp hx with hin | hin
        · exact h2 x hin
        · have : x = b := by simpa using hin
          rw [this]; exact hany
      · rw [if_neg hany, List.any_append]
        rcases List.mem_append.mp hx with hin | hin
        · simp [h2 x hin]
        · have : x = b := by simpa using hin
          simp [this]
    have hmain := ih (setdefaultAppend c b.page b) (done ++ [b]) hinv1 hinv2 p l hm
    simpa using hmain

/-- Every entry of the grouped dict holds the filter of the flat
encounter sequence by its page. -/
theorem groupByPage_filter (bs : List BoxDescription) :
    ∀ p l, (p, l) ∈ groupByPage bs → l = bs.filter (fun b => decide (b.page = p)) := by
  intro p l hm
  simpa using foldl_setdefault_filter bs [] [] (by simp) (by simp) p l hm

/-- A digit is not whitespace. -/
theorem digit_not_whitespace (c : Char) (h : c.isDigit = true) :
    c.isWhitespace = false := by
  by_contra hw
  rw [Bool.not_eq_false] at hw
  simp only [Char.isWhitespace, Bool.or_eq_true, decide_eq_true_eq,
    beq_iff_eq] at hw
  rcases hw with ((rfl | rfl) | rfl) | rfl <;> exact absurd h (by decide)

/-- Dropping leading whitespace from an all-digit list is the
identity. -/
theorem dropWhile_ws_of_digits (l : List Char) (h : ∀ c ∈ l, c.isDigit = true) :
    l.dropWhile Char.isWhitespace = l := by
  cases l with
  | nil => rfl
  | cons c cs =>
    rw [List.dropWhile_cons, digit_not_whitespace c (h c (by simp))]
    simp

/-- Stripping whitespace from an all-digit list is the identity. -/
theorem pyStrip_of_digits (l : List Char) (h : ∀ c ∈ l, c.isDigit = true) :
    pyStrip l = l := by
  unfold pyStrip
  rw [dropWhile_ws_of_digits l h,
    dropWhile_ws_of_digits l.reverse (by intro c hc; exact h c (List.mem_reverse.mp hc)),
    List.reverse_reverse]

/-- A successful `natDigitsAux` run means every character was a
digit. -/
theorem natDigitsAux_all_digits :
    ∀ (cs : List Char) (acc n : Nat), natDigitsAux cs acc = some n →
      ∀ c ∈ cs, c.isDigit = true := by
  intro cs
  induction cs with
  | nil => intro acc n _ c hc; simp at hc
  | cons c0 cs0 ih =>
    intro acc n h c hc
    unfold natDigitsAux at h
    by_cases hd : c0.isDigit = true
    · rw [if_pos hd] at h
      rcases List.mem_cons.mp hc with rfl | hc0
      · exact hd
      · exact ih _ n h c hc0
    · rw [if_neg hd] at h
      exact Option.noConfusion h

/-- On an all-digit tail the Python digit parser agrees with the
plain-numeral parser. -/
theorem pyDigitsAux_eq_natDigitsAux :
    ∀ (cs : List Char) (acc : Nat), (∀ c ∈ cs, c.isDigit = true) →
      pyDigitsAux cs acc = natDigitsAux cs acc := by
  intro cs
  induction cs with
  | nil => intro acc _; rfl
  | cons c0 cs0 ih =>
    intro acc h
    have hd : c0.isDigit = true := h c0 (by simp)
    unfold pyDigitsAux natDigitsAux
    rw [if_pos hd, if_pos hd]
    exact ih _ (fun c hc => h c (List.mem_cons_of_mem c0 hc))

/-- A plain decimal numeral is accepted by Python `int(...)`, with the
same value. -/
theorem natToken_pyInt (s : String) (n : Nat) (h : natToken? s = some n) :
    pyInt? s = some (n : Int) := by
  cases hd : s.data with
  | nil =>
    simp only [natToken?, hd] at h
    exact Option.noConfusion h
  | cons c cs =>
    simp only [natToken?, hd] at h
    by_cases hc : c.isDigit = true
    · rw [if_pos hc] at h
      have hall : ∀ x ∈ cs, x.isDigit = true := natDigitsAux_all_digits cs _ n h
      have hall2 : ∀ x ∈ c :: cs, x.isDigit = true := by
        intro x hx
        rcases List.mem_cons.mp hx with rfl | hx0
        · exact hc
        · exact hall x hx0
      have hplus : ¬ c = '+' := by
        intro he; rw [he] at hc; simp [Char.isDigit] at hc
      have hminus : ¬ c = '-' := by
        intro he; rw [he] at hc; simp [Char.isDigit] at hc
      have hstrip : pyStrip s.data = c :: cs := by
        rw [hd]; exact pyStrip_of_digits _ hall2
      simp only [pyInt?, hstrip, pyIntCore]
      rw [if_neg hplus, if_neg hminus]
      simp only [pyIntDigits]
      rw [if_pos hc, pyDigitsAux_eq_natDigitsAux cs _ hall, h]
      rfl
    · rw [if_neg hc] at h
      exact Option.noConfusion h

/-- A value reachable by the canonical spec-level path lookup is the
value the walking loop of `resolve_item` returns. -/
theorem specGetPath_imp_resolveWalk :
    ∀ (toks : List String) (item v : Json),
      specGetPath item toks = some v → resolveWalk item toks = some v := by
  intro toks
  induction toks with
  | nil =>
    intro item v h
    exact h
  | cons k rest ih =>
    intro item v h
    cases item with
    | null => exact Option.noConfusion h
    | bool b => exact Option.noConfusion h
    | num q => exact Option.noConfusion h
    | str s => exact Option.noConfusion h
    | obj kvs =>
      cases hl : lookupKey kvs k with
      | none =>
        simp only [specGetPath, hl] at h
        exact Option.noConfusion h
      | some w =>
        simp only [specGetPath, hl] at h
        simp only [resolveWalk, hl]
        exact ih w v h
    | arr l =>
      cases hn : natToken? k with
      | none =>
        simp only [specGetPath, hn] at h
        exact Option.noConfusion h
      | some n =>
        cases hg : l.get? n with
        | none =>
          simp only [specGetPath, hn, hg] at h
          exact Option.noConfusion h
        | some w =>
          simp only [specGetPath, hn, hg] at h
          have hidx : pyIndex l (n : Int) = some w := by
            unfold pyIndex
            rw [if_pos (by exact_mod_cast Nat.zero_le n)]
            simpa using hg
          simp only [resolveWalk, natToken_pyInt k n hn, hidx]
          exact ih w v h

/-- C1: for every bounding box (x0, y0, x1, y1) in PDF space and page
pixel height H, the conversion performed before drawing (lines
219-225) yields the raster rectangle (round x0, round (H - y1),
round x1, round (H - y0)) described by the spec-level to_raster_rect;
in particular for bbox = (10, 20, 30, 40) and H = 100 it yields
(10, 60, 30, 80). -/
theorem draw_boxes_rect_matches_to_raster_rect (x0 y0 x1 y1 w h : Rat) :
    (rectOfBbox [x0, y0, x1, y1] [w, h] =
      some [(to_raster_rect (x0, y0, x1, y1) h).1,
        (to_raster_rect (x0, y0, x1, y1) h).2.1,
        (to_raster_rect (x0, y0, x1, y1) h).2.2.1,
        (to_raster_rect (x0, y0, x1, y1) h).2.2.2]) ∧
    to_raster_rect (10, 20, 30, 40) 100 = (10, 60, 30, 80) := by
  constructor
  · rfl
  · show (pyRound 10, pyRound ((100 : Rat) - 40), pyRound 30,
      pyRound ((100 : Rat) - 20)) = (10, 60, 30, 80)
    norm_num [pyRound]

/-- C2 counterexample: for the reference "#/0" into an empty top-level
list, the walk reaches an out-of-range sequence index, and
resolve_item raises (an uncaught IndexError, modelled by none) instead
of returning the empty Element. -/
theorem resolve_out_of_range_counterexample :
    resolve_item (Json.obj [("$ref", Json.str "#/0")]) (Json.arr []) = none ∧
    resolve_item (Json.obj [("$ref", Json.str "#/0")]) (Json.arr []) ≠
      some (Json.obj []) :=
  ⟨rfl, fun h => Option.noConfusion h⟩

/-- C2 amended: when the walk is at a mapping whose next token is a
missing key, resolve returns the empty Element without raising; but
when the walk is at a sequence and the token parses as an integer
index that is out of range, resolve raises an uncaught IndexError
(modelled by none) rather than returning an empty Element. -/
theorem resolve_missing_key_empty_out_of_range_raises :
    (∀ (kvs : List (String × Json)) (k : String) (rest : List String),
        lookupKey kvs k = none →
        resolveWalk (Json.obj kvs) (k :: rest) = some (Json.obj [])) ∧
    (∀ (l : List Json) (k : String) (i : Int) (rest : List String),
        pyInt? k = some i → pyIndex l i = none →
        resolveWalk (Json.arr l) (k :: rest) = none) := by
  constructor
  · intro kvs k rest h
    simp only [resolveWalk, h]
  · intro l k i rest h1 h2
    simp only [resolveWalk, h1, h2]

/-- C2 witness: the amended statement at concrete inputs: a missing
key in an empty mapping yields the empty Element, and index 0 into an
empty sequence raises. -/
theorem resolve_missing_key_witness :
    resolveWalk (Json.obj []) ["x"] = some (Json.obj []) ∧
    resolveWalk (Json.arr []) ["0"] = none :=
  ⟨resolve_missing_key_empty_out_of_range_raises.1 [] "x" [] rfl,
   resolve_missing_key_empty_out_of_range_raises.2 [] "0" 0 [] rfl rfl⟩

/-- C3 counterexample: the token "-1" does not parse as a non-negative
integer, yet resolve_item does not return an empty Element: Python
int() accepts the sign and the negative index selects the last
element. -/
theorem resolve_negative_token_counterexample :
    resolve_item (Json.obj [("$ref", Json.str "#/-1")])
      (Json.arr [Json.num 7]) = some (Json.num 7) ∧
    resolve_item (Json.obj [("$ref", Json.str "#/-1")])
      (Json.arr [Json.num 7]) ≠ some (Json.obj []) :=
  ⟨rfl, fun h => Json.noConfusion (Option.some.inj h)⟩

/-- C3 amended: at a sequence the token must parse as a Python
integer, possibly signed, a negative value indexing from the end; only
when the token fails to parse as an integer does resolve fail with the
malformed-reference condition and return an empty Element. -/
theorem resolve_malformed_token_returns_empty :
    (∀ (l : List Json) (k : String) (rest : List String),
        pyInt? k = none →
        resolveWalk (Json.arr l) (k :: rest) = some (Json.obj [])) ∧
    resolveWalk (Json.arr [Json.num 7]) ["-1"] = some (Json.num 7) := by
  constructor
  · intro l k rest h
    simp only [resolveWalk, h]
  · rfl

/-- C3 witness: the amended statement at a concrete non-integer
token. -/
theorem resolve_malformed_token_witness :
    resolveWalk (Json.arr []) ["x"] = some (Json.obj []) :=
  resolve_malformed_token_returns_empty.1 [] "x" [] rfl

/-- C4: whenever extraction succeeds, each page entry of the returned
map is exactly the sub-sequence, in encounter order, of the flat
main-text box sequence on that page; and on the concrete document with
elements on pages 1, 1, 2 the map holds the two page-1 elements in
original order under key 1 and the page-2 element under key 2. -/
theorem extract_groups_by_page_in_order :
    (∀ (doc : Json) (m : PageBoxMap) (log : List String),
        page_elements_from_json_document doc = some (m, log) →
        ∃ bs : List BoxDescription,
          mainTextBoxes doc = some (bs, log) ∧
          ∀ (p : JKey) (l : List BoxDescription),
            (p, l) ∈ m → l = bs.filter (fun b => decide (b.page = p))) ∧
    page_elements_from_json_document docPages112 =
      some ([(JKey.num 1, [boxA, boxB]), (JKey.num 2, [boxC])], []) := by
  constructor
  · intro doc m log h
    rw [page_elements_eq_mainTextBoxes] at h
    cases hmb : mainTextBoxes doc with
    | none => rw [hmb] at h; exact Option.noConfusion h
    | some r =>
      rw [hmb] at h
      simp only [Option.map_some', Option.some.injEq, Prod.mk.injEq] at h
      obtain ⟨hm, hlog⟩ := h
      refine ⟨r.1, ?_, ?_⟩
      · rw [← hlog]
      · intro p l hpl
        exact groupByPage_filter r.1 p l (by rw [hm]; exact hpl)
  · rfl

/-- C4 witness: the general grouping statement applied to the concrete
document with pages 1, 1, 2. -/
theorem extract_groups_witness :
    [boxA, boxB] = [boxA, boxB, boxC].filter (fun b => decide (b.page = JKey.num 1)) := by
  obtain ⟨bs, hbs, hf⟩ := extract_groups_by_page_in_order.1 docPages112
    [(JKey.num 1, [boxA, boxB]), (JKey.num 2, [boxC])] [] rfl
  have hmb : mainTextBoxes docPages112 =
      some ([boxA, boxB, boxC], ([] : List String)) := rfl
  rw [hmb] at hbs
  simp only [Option.some.injEq, Prod.mk.injEq] at hbs
  obtain ⟨hb, -⟩ := hbs
  rw [hb]
  exact hf (JKey.num 1) [boxA, boxB] (List.Mem.head _)

/-- C5: a resolved element that is a mapping without provenance is
skipped with a diagnostic and processing continues with the remaining
main-text entries; a resolved element with provenance contributes
exactly one box whose page and bbox come from the first provenance
record, the later records being ignored. -/
theorem extract_skip_no_prov_first_prov_only :
    (∀ (doc raw : Json) (rest : List Json) (clusters : PageBoxMap)
        (log : List String) (kvs : List (String × Json)),
        resolve_item raw doc = some (Json.obj kvs) →
        lookupKey kvs "prov" = none →
        processMainText doc (raw :: rest) clusters log =
          processMainText doc rest clusters (log ++ ["PROV not found"])) ∧
    (∀ (doc raw : Json) (rest : List Json) (clusters : PageBoxMap)
        (log : List String) (kvs pkvs : List (String × Json)) (ps : List Json)
        (page ty bbox : Json) (k : JKey),
        resolve_item raw doc = some (Json.obj kvs) →
        lookupKey kvs "prov" = some (Json.arr (Json.obj pkvs :: ps)) →
        lookupKey pkvs "page" = some page →
        lookupKey kvs "type" = some ty →
        lookupKey pkvs "bbox" = some bbox →
        page.toKey? = some k →
        processMainText doc (raw :: rest) clusters log =
          processMainText doc rest
            (setdefaultAppend clusters k { page := k, type := ty, bbox := bbox })
            log) := by
  constructor
  · intro doc raw rest clusters log kvs h1 h2
    simp only [processMainText, itemStep, h1, h2]
  · intro doc raw rest clusters log kvs pkvs ps page ty bbox k h1 h2 h3 h4 h5 h6
    simp only [processMainText, itemStep, h1, h2, h3, h4, h5, h6]

/-- C5 witness: the skip clause on a concrete element without
provenance, and the first-provenance clause on a concrete element,
both against the empty document. -/
theorem extract_skip_witness :
    processMainText (Json.obj []) [elemNoProv] [] [] =
      processMainText (Json.obj []) [] [] ([] ++ ["PROV not found"]) ∧
    processMainText (Json.obj []) [elemA] [] [] =
      processMainText (Json.obj []) []
        (setdefaultAppend [] (JKey.num 1)
          { page := JKey.num 1, type := Json.str "paragraph", bbox := bbA }) [] :=
  ⟨extract_skip_no_prov_first_prov_only.1 (Json.obj []) elemNoProv [] [] []
      [("type", Json.str "paragraph")] rfl rfl,
   extract_skip_no_prov_first_prov_only.2 (Json.obj []) elemA [] [] []
      [("type", Json.str "paragraph"),
        ("prov", Json.arr [Json.obj [("page", Json.num 1), ("bbox", bbA)]])]
      [("page", Json.num 1), ("bbox", bbA)] [] (Json.num 1)
      (Json.str "paragraph") bbA (JKey.num 1) rfl rfl rfl rfl rfl rfl⟩

/-- C6: for every reference item whose slash-delimited path, first
token discarded as the document root, exists in the document in the
spec-level sense, resolve_item returns exactly the nested value at
that path. -/
theorem resolve_existing_path_returns_value :
    ∀ (kvs : List (String × Json)) (doc : Json) (s : String) (v : Json),
      lookupKey kvs "$ref" = some (Json.str s) →
      specGetPath doc ((splitSlash s).tail) = some v →
      resolve_item (Json.obj kvs) doc = some v := by
  intro kvs doc s v h1 h2
  have hany : kvs.any (fun p => decide (p.1 = "$ref")) = true :=
    lookupAssoc_some_any kvs "$ref" (Json.str s) h1
  simp only [resolve_item, hasRefMarker, hany, h1]
  exact specGetPath_imp_resolveWalk _ _ _ h2

/-- C6 witness: resolving a concrete existing path "#/a/0". -/
theorem resolve_existing_path_witness :
    resolve_item (Json.obj [("$ref", Json.str "#/a/0")])
      (Json.obj [("a", Json.arr [Json.num 7])]) = some (Json.num 7) :=
  resolve_existing_path_returns_value [("$ref", Json.str "#/a/0")]
    (Json.obj [("a", Json.arr [Json.num 7])]) "#/a/0" (Json.num 7) rfl rfl

/-- C7: every raw item that carries no reference marker (the Python
membership test evaluates to false) is returned unchanged by
resolve_item. -/
theorem resolve_identity_without_marker :
    ∀ (raw doc : Json), hasRefMarker raw = some false →
      resolve_item raw doc = some raw := by
  intro raw doc h
  simp only [resolve_item, h]

/-- C7 witness: a concrete mapping without the reference marker is
returned unchanged. -/
theorem resolve_identity_witness :
    resolve_item (Json.obj [("a", Json.null)]) Json.null =
      some (Json.obj [("a", Json.null)]) :=
  resolve_identity_without_marker (Json.obj [("a", Json.null)]) Json.null rfl

/-- C8: for every box type label that is absent from the style map
under case-insensitive comparison, the style lookup of draw_boxes
(line 227) yields the default gray fill and transparent outline, and
being a total function it never raises. -/
theorem style_lookup_default_for_unknown :
    ∀ ty : String,
      (∀ k, k ∈ labels_colors_clusters.map Prod.fst → pyLower k ≠ pyLower ty) →
      getStyle labels_colors_clusters ty =
        ([128, 128, 128, 100], [0, 0, 0, 0]) := by
  intro ty h
  have h1 : lookupAssoc labels_colors_clusters (pyLower ty) = none := by
    unfold lookupAssoc
    rw [Option.map_eq_none', List.find?_eq_none]
    intro p hp
    simp only [decide_eq_true_eq]
    fin_cases hp
    · exact h "table" (by simp [labels_colors_clusters])
    · exact h "caption" (by simp [labels_colors_clusters])
    · exact h "citation" (by simp [labels_colors_clusters])
    · exact h "picture" (by simp [labels_colors_clusters])
    · exact h "formula" (by simp [labels_colors_clusters])
    · exact h "subtitle-level-1" (by simp [labels_colors_clusters])
    · exact h "paragraph" (by simp [labels_colors_clusters])
  simp only [getStyle, h1, Option.getD_none, defaultStyle]

/-- C8 witness: the style lookup for the unknown label "unknown" falls
back to the default pair. -/
theorem style_lookup_default_witness :
    getStyle labels_colors_clusters "unknown" =
      ([128, 128, 128, 100], [0, 0, 0, 0]) :=
  style_lookup_default_for_unknown "unknown" (by decide)

/-- C9 counterexample: an archive whose first ".json" member cannot be
parsed aborts the whole batch (modelled by none), although the second
member alone would be processed; the claimed continue-to-next-document
behaviour does not happen for ".json" data files. -/
theorem archive_json_error_aborts_counterexample :
    processOutputFiles
      [{ name := "a.json", content := none },
       { name := "b.json", content := some (Json.obj []) }] = none ∧
    processOutputFiles [{ name := "b.json", content := some (Json.obj []) }] =
      some ([(Json.obj [], Json.obj [])], ["Something else went wrong"]) :=
  ⟨rfl, rfl⟩

/-- C9 amended: only the ".cells" read sits inside a try/except, so
cells-side failures are absorbed (the cells data is always the empty
dict and the message is always printed) and the loop continues; a
".json" member that cannot be read or parsed aborts the whole batch
uncaught. -/
theorem archive_cells_absorbed_json_aborts :
    (∀ (name : String) (rest : List ArchiveFile),
        pyEndsWith name ".json" = true →
        processOutputFiles ({ name := name, content := none } :: rest) = none) ∧
    (∀ (name : String) (j : Json) (rest : List ArchiveFile)
        (docs : List (Json × Json)) (log : List String),
        pyEndsWith name ".json" = true →
        processOutputFiles rest = some (docs, log) →
        processOutputFiles ({ name := name, content := some j } :: rest) =
          some ((j, Json.obj []) :: docs, "Something else went wrong" :: log)) := by
  constructor
  · intro name rest h
    simp only [processOutputFiles, h, if_true]
  · intro name j rest docs log h hr
    simp only [processOutputFiles, h, if_true, hr]

/-- C9 witness: the amended statement at concrete archives. -/
theorem archive_loop_witness :
    processOutputFiles [{ name := "a.json", content := none }] = none ∧
    processOutputFiles [{ name := "a.json", content := some Json.null }] =
      some ([(Json.null, Json.obj [])], ["Something else went wrong"]) :=
  ⟨archive_cells_absorbed_json_aborts.1 "a.json" [] rfl,
   archive_cells_absorbed_json_aborts.2 "a.json" Json.null [] [] [] rfl rfl⟩

/-- C10: whenever extraction succeeds, every box stored in the
returned map has its page field equal to the map key under which it is
stored. -/
theorem pagebox_key_matches_page_field :
    ∀ (doc : Json) (m : PageBoxMap) (log : List String) (p : JKey)
      (l : List BoxDescription) (b : BoxDescription),
      page_elements_from_json_document doc = some (m, log) →
      (p, l) ∈ m → b ∈ l → b.page = p := by
  intro doc m log p l b h hpl hb
  rw [page_elements_eq_mainTextBoxes] at h
  cases hmb : mainTextBoxes doc with
  | none => rw [hmb] at h; exact Option.noConfusion h
  | some r =>
    rw [hmb] at h
    simp only [Option.map_some', Option.some.injEq, Prod.mk.injEq] at h
    obtain ⟨hm, -⟩ := h
    have hfil := groupByPage_filter r.1 p l (by rw [hm]; exact hpl)
    rw [hfil] at hb
    have := List.mem_filter.mp hb
    exact of_decide_eq_true this.2

/-- C10 witness: on the concrete document, the first box under key 1
records page 1. -/
theorem pagebox_key_witness : boxA.page = JKey.num 1 :=
  pagebox_key_matches_page_field docPages112
    [(JKey.num 1, [boxA, boxB]), (JKey.num 2, [boxC])] [] (JKey.num 1)
    [boxA, boxB] boxA rfl (List.Mem.head _) (List.Mem.head _)
